import Mathlib

/-!
A verification development for the Risk-Radar portfolio analyzer.

The Python sources are shallowly embedded here:
* price series are lists of `(date, price)` pairs with dates as day numbers
  (`ℤ`) and prices as exact rationals (`ℚ`);
* `pandas`/`numpy` float results that can be NaN/inf are modelled with
  `Option` (`none` = non-finite) and raised exceptions with `Except.error`;
* values produced through `**` (real powers) or `sqrt` live in `ℝ`.
-/

namespace RiskRadar

/-! ## Return calculation (src/app.py `calculate_cagr`, src/risk_metrics.py) -/

/-- One step of `Series.pct_change()`: the simple return from `prev` to `cur`. -/
def pct (prev cur : ℚ) : ℚ := (cur - prev) / prev

/-- `series.pct_change().dropna()` on the list of prices: simple daily
returns, one per consecutive pair of prices. -/
def dailyReturns (prices : List ℚ) : List ℚ := List.zipWith pct prices prices.tail

/-- `Series.cumprod()`: running products, same length as the input. -/
def cumprod : List ℚ → List ℚ
  | [] => []
  | x :: xs => List.scanl (· * ·) x xs

/-- `(1 + returns).cumprod()[-1]` of `src/app.py:calculate_cagr`:
`none` when the return series is empty (positional `[-1]` raises there). -/
def cumLast? (prices : List ℚ) : Option ℚ :=
  (cumprod ((dailyReturns prices).map (fun r => 1 + r))).getLast?

/-- `(index[-1] - index[0]).days` of a dated series. -/
def spanDays (s : List (ℤ × ℚ)) : ℤ :=
  (s.getLast?.getD (0, 0)).1 - (s.head?.getD (0, 0)).1

/-- `src/app.py:calculate_cagr`.  The Python body is
`cumulative_returns[-1] ** (1 / total_years) - 1` with
`total_years = (index[-1] - index[0]).days / 365.25`; indexing an empty
series raises (`IndexError`) and `1 / 0.0` raises `ZeroDivisionError`,
both modelled with `Except.error`. -/
noncomputable def calculate_cagr (s : List (ℤ × ℚ)) : Except String ℝ :=
  match cumLast? (s.map Prod.snd) with
  | none => .error "IndexError"
  | some c =>
      if spanDays s = 0 then .error "ZeroDivisionError"
      else .ok ((c : ℝ) ^ (((1 / ((spanDays s : ℚ) / (1461 / 4))) : ℚ) : ℝ) - 1)

/-- The per-sector branch of `src/app.py:get_sector_etf_performance`:
series with fewer than 2 prices get `np.nan` (here `Option.none`),
otherwise the same CAGR formula as `calculate_cagr`. -/
noncomputable def sector_cagr (prices : List (ℤ × ℚ)) : Except String (Option ℝ) :=
  if prices.length < 2 then .ok none
  else
    match cumLast? (prices.map Prod.snd) with
    | none => .error "IndexError"
    | some c =>
        if spanDays prices = 0 then .error "ZeroDivisionError"
        else .ok (some ((c : ℝ) ^ (((1 / ((spanDays prices : ℚ) / (1461 / 4))) : ℚ) : ℝ) - 1))

/-- Modelled from the spec: `cumulativeReturnFactor`, the plain product of
`(1 + r)` over all daily returns (the spec's formula for the CAGR base). -/
def specCumFactor (s : List (ℤ × ℚ)) : ℚ :=
  ((dailyReturns (s.map Prod.snd)).map (fun r => 1 + r)).prod

/-- `Series.mean()`: NaN (`none`) on an empty series. -/
def mean? (l : List ℚ) : Option ℚ :=
  if l = [] then none else some (l.sum / l.length)

/-- Pandas `Series.std()` squared, i.e. the `ddof = 1` sample variance:
`NaN` (`none`) when fewer than 2 observations. -/
def sampleVar? (l : List ℚ) : Option ℚ :=
  if l.length < 2 then none
  else some ((l.map (fun x => (x - l.sum / l.length) ^ 2)).sum / ((l.length : ℚ) - 1))

/-- `np.std` squared, the `ddof = 0` population variance: NaN only on an
empty array. -/
def popVar? (l : List ℚ) : Option ℚ :=
  if l = [] then none
  else some ((l.map (fun x => (x - l.sum / l.length) ^ 2)).sum / (l.length : ℚ))

/-- `src/app.py` line 219: `portfolio_daily_returns.std() * np.sqrt(252)`
(pandas `std`, sample / `ddof = 1`). -/
noncomputable def port_volatility (r : List ℚ) : Option ℝ :=
  (sampleVar? r).map (fun v : ℚ => Real.sqrt (v : ℝ) * Real.sqrt 252)

/-- `src/risk_metrics.py` line 7: `np.std(portfolio_returns) * np.sqrt(252)`
(numpy `std`, population / `ddof = 0`). -/
noncomputable def rm_volatility (r : List ℚ) : Option ℝ :=
  (popVar? r).map (fun v : ℚ => Real.sqrt (v : ℝ) * Real.sqrt 252)

/-- `src/app.py` line 220:
`port_cagr / port_volatility if port_volatility > 0 else np.nan`.
A NaN volatility compares false under `> 0`, so it also yields NaN. -/
noncomputable def port_sharpe (cagr : ℝ) (vol? : Option ℝ) : Option ℝ :=
  match vol? with
  | some v => if 0 < v then some (cagr / v) else none
  | none => none

/-- `src/risk_metrics.py` line 9:
`portfolio_returns.mean() / portfolio_returns.std() * np.sqrt(252)`.
`none` stands for any non-finite float result (NaN input, or division of
a finite float by a zero standard deviation, which numpy turns into
inf/NaN rather than raising). -/
noncomputable def rm_sharpe (r : List ℚ) : Option ℝ :=
  match mean? r, sampleVar? r with
  | some m, some v =>
      if v = 0 then none else some ((m : ℝ) / Real.sqrt (v : ℝ) * Real.sqrt 252)
  | _, _ => none

/-- `DataFrame.pct_change().dropna()` on a price table stored as a list of
rows (one row of prices per date). -/
def pctRows (pd : List (List ℚ)) : List (List ℚ) :=
  List.zipWith (fun prev cur => List.zipWith pct prev cur) pd pd.tail

/-- `(returns * weights).sum(axis=1)`: the weighted daily portfolio returns,
shared by `src/risk_metrics.py` and `src/stress_test.py`. -/
def portfolioReturns (pd : List (List ℚ)) (w : List ℚ) : List ℚ :=
  (pctRows pd).map (fun row => ((row.zip w).map (fun p => p.1 * p.2)).sum)

/-! ## Underperformance detection (src/app.py lines 233-237) -/

/-- The loop
`for t in final_tickers: if stock_cagr < 0.3 * port_cagr: underperformers.append(...)`
over pre-computed `(ticker, cagr)` pairs. -/
def underperformers {α : Type} [LinearOrderedField α] :
    List (String × α) → α → List (String × α)
  | [], _ => []
  | (t, c) :: rest, p =>
      if c < 3 / 10 * p then (t, c) :: underperformers rest p
      else underperformers rest p

/-! ## Scenario stress testing (src/stress_test.py) -/

/-- The values reported by `src/stress_test.py:run_stress_test`. -/
structure StressResult where
  base : List ℚ
  shocked : List ℚ
  originalAvg : Option ℚ
  shockedAvg : Option ℚ
  impact : Option ℚ

/-- NaN-propagating subtraction of two possibly-NaN means. -/
def optSub : Option ℚ → Option ℚ → Option ℚ
  | some a, some b => some (a - b)
  | _, _ => none

/-- `src/stress_test.py:run_stress_test`: a flat additive shock selected by
the scenario string, then the mean comparison summary. -/
def run_stress_test (pd : List (List ℚ)) (w : List ℚ) (scenario : String) : StressResult :=
  let base := portfolioReturns pd w
  let shocked :=
    if scenario = "Market Crash -10%" then base.map (fun r => r - 1 / 10)
    else if scenario = "Interest Rate Hike +2%" then base.map (fun r => r - 1 / 50)
    else base
  { base := base
    shocked := shocked
    originalAvg := mean? base
    shockedAvg := mean? shocked
    impact := optSub (mean? shocked) (mean? base) }

/-- The shock constant of each scenario kind (MarketCrash `-0.10`,
RateHike `-0.02`, everything else Baseline `0`). -/
def shockOf (scenario : String) : ℚ :=
  if scenario = "Market Crash -10%" then -(1 / 10)
  else if scenario = "Interest Rate Hike +2%" then -(1 / 50)
  else 0

/-! ## Weight normalization (src/app.py lines 139-140 and 204-209) -/

/-- numpy float division: `none` for the non-finite results `x / 0.0`
produces (`inf`, `-inf` or NaN — numpy warns but does not raise). -/
def npDiv (x d : ℚ) : Option ℚ := if d = 0 then none else some (x / d)

/-- `weights /= weights.sum()`: every entry divided by the common sum. -/
def normalize (w : List ℚ) : List (Option ℚ) := w.map (fun x => npDiv x w.sum)

/-- A NaN-propagating weighted row sum: the portfolio daily return computed
with possibly non-finite weights. -/
def dotNaN (rs : List ℚ) (ws : List (Option ℚ)) : Option ℚ :=
  (List.zip rs ws).foldr
    (fun p acc =>
      match p.2, acc with
      | some w, some a => some (p.1 * w + a)
      | _, _ => none)
    (some 0)

/-- `src/app.py` lines 204-208: re-pick the weights of the surviving tickers
by positional index (`tickers.index(tkr)`). -/
def weights_matched (tickers : List String) (w : List ℚ) (final : List String) : List ℚ :=
  final.map (fun t => w.getD (List.findIdx (fun s => s == t) tickers) 0)

/-! ## Helper lemmas -/

theorem sum_map_add_const (l : List ℚ) (s : ℚ) :
    (l.map (fun x => x + s)).sum = l.sum + l.length * s := by
  induction l with
  | nil => simp
  | cons x xs ih => simp [ih]; ring

theorem mean?_of_ne_nil (l : List ℚ) (h : l ≠ []) :
    mean? l = some (l.sum / l.length) := by
  simp [mean?, h]

theorem mean?_map_add (l : List ℚ) (s : ℚ) (h : l ≠ []) :
    mean? (l.map (fun x => x + s)) = some (l.sum / l.length + s) := by
  have hlen : (l.length : ℚ) ≠ 0 := by
    simpa using (List.length_pos.mpr h).ne'
  have hm : l.map (fun x => x + s) ≠ [] := by
    simpa using h
  rw [mean?_of_ne_nil _ hm, sum_map_add_const, List.length_map]
  congr 1
  rw [add_div]
  congr 1
  exact mul_div_cancel_left₀ s hlen

/-! ## Claim C6 -/

theorem underperformers_eq_filter (l : List (String × ℝ)) (p : ℝ) :
    underperformers l p = l.filter (fun x => decide (x.2 < 3 / 10 * p)) := by
  induction l with
  | nil => rfl
  | cons x xs ih =>
      obtain ⟨x1, x2⟩ := x
      by_cases hx : x2 < 3 / 10 * p
      · simp [underperformers, if_pos hx, List.filter_cons, hx, ih]
      · simp [underperformers, if_neg hx, List.filter_cons, hx, ih]

/-- Claim C6: a ticker is flagged as an underperformer exactly when its CAGR
is strictly below `0.3` times the portfolio CAGR (the comparison taken
literally, hence sign-sensitive for a negative portfolio CAGR), and the
returned `(ticker, cagr)` sequence preserves the input order. -/
theorem c6_underperformers_flagging (l : List (String × ℝ)) (p : ℝ) :
    (∀ t c, (t, c) ∈ underperformers l p ↔ ((t, c) ∈ l ∧ c < 3 / 10 * p)) ∧
    (underperformers l p).Sublist l := by
  rw [underperformers_eq_filter]
  exact ⟨fun t c => by simp [List.mem_filter], List.filter_sublist l⟩

/-! ## Claim C7 -/

/-- Claim C7: `run_stress_test` applies a uniform additive shock to every
daily return (`-0.10` for the market-crash kind, `-0.02` for the rate-hike
kind, `0` otherwise, unknown kinds behaving as Baseline), and for a
non-empty return series the reported impact (shocked mean minus baseline
mean) equals the shock constant exactly. -/
theorem c7_apply_scenario (pd : List (List ℚ)) (w : List ℚ) (sc : String) :
    (run_stress_test pd w sc).shocked
        = (run_stress_test pd w sc).base.map (fun r => r + shockOf sc) ∧
    (sc ≠ "Market Crash -10%" → sc ≠ "Interest Rate Hike +2%" →
      (run_stress_test pd w sc).shocked = (run_stress_test pd w sc).base) ∧
    ((run_stress_test pd w sc).base ≠ [] →
      (run_stress_test pd w sc).impact = some (shockOf sc)) := by
  refine ⟨?_, ?_, ?_⟩
  · by_cases h1 : sc = "Market Crash -10%"
    · simp [run_stress_test, shockOf, h1, sub_eq_add_neg]
    · by_cases h2 : sc = "Interest Rate Hike +2%"
      · simp [run_stress_test, shockOf, h1, h2, sub_eq_add_neg]
      · simp [run_stress_test, shockOf, h1, h2]
  · intro h1 h2
    simp [run_stress_test, h1, h2]
  · intro hne
    have hbase : portfolioReturns pd w ≠ [] := by
      simpa [run_stress_test] using hne
    have hshock :
        (run_stress_test pd w sc).shocked
          = (portfolioReturns pd w).map (fun r => r + shockOf sc) := by
      by_cases h1 : sc = "Market Crash -10%"
      · simp [run_stress_test, shockOf, h1, sub_eq_add_neg]
      · by_cases h2 : sc = "Interest Rate Hike +2%"
        · simp [run_stress_test, shockOf, h1, h2, sub_eq_add_neg]
        · simp [run_stress_test, shockOf, h1, h2]
    have himp :
        (run_stress_test pd w sc).impact
          = optSub (mean? ((run_stress_test pd w sc).shocked)) (mean? (portfolioReturns pd w)) := by
      simp [run_stress_test]
    rw [himp, hshock, mean?_map_add _ _ hbase, mean?_of_ne_nil _ hbase, optSub]
    simp

/-- Witness for C7: the spec's own example.  A single-asset price path whose
daily returns are `[0.01, 0.02, -0.01]`; the market-crash scenario shocks
them to `[-0.09, -0.08, -0.11]` with impact exactly `-0.10`. -/
theorem c7_apply_scenario_witness :
    (run_stress_test [[100], [101], [5151/50], [509949/5000]] [1] "Market Crash -10%").shocked
        = [-(9/100), -(2/25), -(11/100)] ∧
    (run_stress_test [[100], [101], [5151/50], [509949/5000]] [1] "Market Crash -10%").impact
        = some (-(1/10)) := by
  have h := c7_apply_scenario [[100], [101], [5151/50], [509949/5000]] [1] "Market Crash -10%"
  refine ⟨h.1.trans ?_, (h.2.2 ?_).trans ?_⟩
  · norm_num [run_stress_test, portfolioReturns, pctRows, pct, shockOf]
  · decide
  · norm_num [shockOf]

/-! ## Claim C10 -/

/-- Claim C10: weight normalization divides by the weight sum with no guard:
when the sum is `0` every normalized weight is non-finite (NaN or ±inf,
`none` here) instead of an error being raised, the downstream weighted
portfolio return is non-finite as well, and the same happens at the
renormalization of the weights re-matched after dropping tickers. -/
theorem c10_zero_sum_normalization (w rw : List ℚ) (tickers final : List String) :
    (w.sum = 0 → normalize w = List.replicate w.length none) ∧
    (w.sum = 0 → w ≠ [] → rw ≠ [] → dotNaN rw (normalize w) = none) ∧
    ((weights_matched tickers w final).sum = 0 →
      normalize (weights_matched tickers w final)
        = List.replicate final.length none) := by
  have hdiv0 : ∀ v : List ℚ, v.map (fun x => npDiv x 0) = List.replicate v.length none := by
    intro v
    induction v with
    | nil => rfl
    | cons x xs ih => simp [npDiv, List.replicate_succ, ih]
  have hmain : ∀ v : List ℚ, v.sum = 0 → normalize v = List.replicate v.length none := by
    intro v hv
    unfold normalize
    rw [hv]
    exact hdiv0 v
  refine ⟨hmain w, ?_, ?_⟩
  · intro hsum hw hrw
    match rw, w with
    | r :: rs, x :: xs =>
        have : normalize (x :: xs) = none :: List.replicate xs.length none := by
          simpa using hmain (x :: xs) hsum
        rw [this]
        simp [dotNaN]
  · intro hsum
    have := hmain _ hsum
    rwa [show (weights_matched tickers w final).length = final.length by
      simp [weights_matched]] at this

/-- Witness for C10: the all-zero portfolio `[0, 0]`.  Both weights
normalize to NaN, the weighted daily return is NaN, and the re-matched
weights of the second ticker renormalize to NaN too. -/
theorem c10_zero_sum_normalization_witness :
    normalize [0, 0] = List.replicate 2 none ∧
    dotNaN [1/100] (normalize [0, 0]) = none ∧
    normalize (weights_matched ["A", "B"] [0, 0] ["B"]) = List.replicate 1 none := by
  have h := c10_zero_sum_normalization [0, 0] [1/100] ["A", "B"] ["B"]
  refine ⟨h.1 (by simp), h.2.1 (by simp) (by simp) (by simp), h.2.2 ?_⟩
  have hAB : (("A" : String) == "B") = false := by decide
  norm_num [weights_matched, List.findIdx_cons, hAB]

/-! ## Helper lemmas about `dailyReturns` and `cumLast?` -/

theorem dailyReturns_length (prices : List ℚ) :
    (dailyReturns prices).length = prices.length - 1 := by
  simp only [dailyReturns, List.length_zipWith, List.length_tail]
  omega

theorem dailyReturns_short (prices : List ℚ) (h : prices.length < 2) :
    dailyReturns prices = [] := by
  have hl := dailyReturns_length prices
  exact List.eq_nil_of_length_eq_zero (by omega)

theorem scanl_mul_getLast? (xs : List ℚ) (a : ℚ) :
    (List.scanl (· * ·) a xs).getLast? = some (xs.foldl (· * ·) a) := by
  induction xs generalizing a with
  | nil => rfl
  | cons x xs ih =>
      show (a :: List.scanl (· * ·) (a * x) xs).getLast? = _
      cases hs : List.scanl (· * ·) (a * x) xs with
      | nil => exact absurd (congrArg List.length hs) (by simp [List.length_scanl])
      | cons b bs =>
          rw [List.getLast?_cons_cons, ← hs, ih]
          rfl

theorem foldl_mul_eq_prod (xs : List ℚ) (a : ℚ) :
    xs.foldl (· * ·) a = a * xs.prod := by
  induction xs generalizing a with
  | nil => simp
  | cons x xs ih => rw [List.foldl_cons, ih, List.prod_cons]; ring

theorem cumLast?_short (prices : List ℚ) (h : prices.length < 2) :
    cumLast? prices = none := by
  unfold cumLast?
  rw [dailyReturns_short prices h]
  rfl

theorem cumLast?_of_two_le (prices : List ℚ) (h : 2 ≤ prices.length) :
    cumLast? prices = some (((dailyReturns prices).map (fun r => 1 + r)).prod) := by
  unfold cumLast?
  have hne : (dailyReturns prices).map (fun r => 1 + r) ≠ [] := by
    have hl := dailyReturns_length prices
    intro hc
    have := congrArg List.length hc
    simp only [List.length_map, List.length_nil] at this
    omega
  obtain ⟨x, xs, hx⟩ := List.exists_cons_of_ne_nil hne
  rw [hx]
  show (List.scanl (· * ·) x xs).getLast? = _
  rw [scanl_mul_getLast?, foldl_mul_eq_prod, ← List.prod_cons]

/-! ## Claim C3 -/

/-- Claim C3 (amended): for a price series with fewer than 2 points,
`pct_change().dropna()` returns the EMPTY return series — no exception is
raised (no `InsufficientDataError` exists anywhere in the code); in general
the return series has `length - 1` entries. -/
theorem c3_daily_returns_short_series (prices : List ℚ) :
    ((dailyReturns prices).length = prices.length - 1) ∧
    (prices.length < 2 → dailyReturns prices = []) := by
  exact ⟨dailyReturns_length prices, dailyReturns_short prices⟩

/-- Witness for C3 (amended): a one-point series yields the empty return
series. -/
theorem c3_daily_returns_short_series_witness : dailyReturns [(5 : ℚ)] = [] :=
  (c3_daily_returns_short_series [5]).2 (by norm_num)

/-- Counterexample to C3 as stated: on the length-1 price series `[100]`
the code RETURNS a (possibly empty) return series — here the empty one —
rather than failing with `InsufficientDataError` (which the code never
defines or raises). -/
theorem c3_no_insufficient_data_error : dailyReturns [(100 : ℚ)] = [] := rfl

/-! ## Claim C4 -/

/-- Claim C4 (amended): only the sector-ETF path guards short series,
returning the NaN sentinel for fewer than 2 points; `calculate_cagr` itself
has no guard: it faults on fewer than 2 points (indexing an empty
cumulative-return series) and on a zero calendar span (`ZeroDivisionError`),
and returns a value exactly when the series has at least 2 points and a
nonzero span. -/
theorem c4_cagr_guards (p s : List (ℤ × ℚ)) :
    (p.length < 2 → sector_cagr p = .ok none) ∧
    (s.length < 2 → calculate_cagr s = .error "IndexError") ∧
    (2 ≤ s.length → spanDays s = 0 → calculate_cagr s = .error "ZeroDivisionError") ∧
    (2 ≤ s.length → spanDays s ≠ 0 → ∃ v, calculate_cagr s = .ok v) := by
  refine ⟨?_, ?_, ?_, ?_⟩
  · intro hp
    unfold sector_cagr
    rw [if_pos hp]
  · intro hs
    have hc : cumLast? (s.map Prod.snd) = none :=
      cumLast?_short _ (by simpa using hs)
    unfold calculate_cagr
    rw [hc]
  · intro hs h0
    have hc := cumLast?_of_two_le (s.map Prod.snd) (by simpa using hs)
    unfold calculate_cagr
    rw [hc]
    simp [h0]
  · intro hs h0
    have hc := cumLast?_of_two_le (s.map Prod.snd) (by simpa using hs)
    unfold calculate_cagr
    rw [hc]
    simp [h0]

/-- Witness for C4 (amended): the guard and each fault at concrete inputs. -/
theorem c4_cagr_guards_witness :
    sector_cagr [((0 : ℤ), (5 : ℚ))] = .ok none ∧
    calculate_cagr [((0 : ℤ), (5 : ℚ))] = .error "IndexError" ∧
    calculate_cagr [((0 : ℤ), (1 : ℚ)), (0, 2)] = .error "ZeroDivisionError" ∧
    ∃ v, calculate_cagr [((0 : ℤ), (1 : ℚ)), (365, 2)] = .ok v := by
  refine ⟨(c4_cagr_guards [((0 : ℤ), (5 : ℚ))] [((0 : ℤ), (5 : ℚ))]).1 (by norm_num),
    (c4_cagr_guards [((0 : ℤ), (5 : ℚ))] [((0 : ℤ), (5 : ℚ))]).2.1 (by norm_num),
    (c4_cagr_guards [((0 : ℤ), (5 : ℚ))] [((0 : ℤ), (1 : ℚ)), (0, 2)]).2.2.1 (by norm_num)
      (by simp [spanDays]),
    (c4_cagr_guards [((0 : ℤ), (5 : ℚ))] [((0 : ℤ), (1 : ℚ)), (365, 2)]).2.2.2 (by norm_num)
      (by simp [spanDays])⟩

/-- Counterexample to C4 as stated: on the one-point series `[(0, 100)]`
(fewer than 2 points) `calculate_cagr` does NOT return a NaN-like sentinel:
it faults (`cumulative_returns[-1]` indexes an empty series), and on a
two-point zero-span series it faults with `ZeroDivisionError`. -/
theorem c4_cagr_crash_counterexample :
    calculate_cagr [((0 : ℤ), (100 : ℚ))] = .error "IndexError" ∧
    calculate_cagr [((0 : ℤ), (100 : ℚ)), (0, 200)] = .error "ZeroDivisionError" := by
  constructor
  · rfl
  · unfold calculate_cagr
    rw [cumLast?_of_two_le _ (by norm_num)]
    simp [spanDays]

/-! ## Helper lemmas for the CAGR formula and constant series -/

theorem calculate_cagr_formula (s : List (ℤ × ℚ)) (h2 : 2 ≤ s.length)
    (hspan : spanDays s ≠ 0) :
    calculate_cagr s
      = .ok ((specCumFactor s : ℝ)
          ^ ((((1461 : ℚ) / 4 / (spanDays s : ℚ)) : ℚ) : ℝ) - 1) := by
  unfold calculate_cagr
  rw [cumLast?_of_two_le _ (by simpa using h2)]
  simp only [if_neg hspan]
  rw [one_div_div]
  rfl

theorem dailyReturns_const (prices : List ℚ) (c : ℚ) (hp : ∀ x ∈ prices, x = c) :
    ∀ r ∈ dailyReturns prices, r = 0 := by
  induction prices with
  | nil => simp [dailyReturns]
  | cons x xs ih =>
      cases xs with
      | nil => simp [dailyReturns]
      | cons y ys =>
          intro r hr
          rw [show dailyReturns (x :: y :: ys) = pct x y :: dailyReturns (y :: ys) from rfl]
            at hr
          rcases List.mem_cons.mp hr with h | h
          · have hx : x = c := hp x (by simp)
            have hy : y = c := hp y (by simp)
            rw [h, pct, hx, hy, sub_self, zero_div]
          · exact ih (fun z hz => hp z (List.mem_cons_of_mem x hz)) r h

theorem specCumFactor_const (s : List (ℤ × ℚ)) (c : ℚ) (hp : ∀ q ∈ s, q.2 = c) :
    specCumFactor s = 1 := by
  unfold specCumFactor
  refine List.prod_eq_one ?_
  intro y hy
  obtain ⟨r, hr, rfl⟩ := List.mem_map.mp hy
  have hr0 : r = 0 := by
    refine dailyReturns_const (s.map Prod.snd) c ?_ r hr
    intro x hx
    obtain ⟨q, hq, rfl⟩ := List.mem_map.mp hx
    exact hp q hq
  rw [hr0, add_zero]

theorem sampleVar?_all_zero (l : List ℚ) (h2 : 2 ≤ l.length) (hz : ∀ x ∈ l, x = 0) :
    sampleVar? l = some 0 := by
  have hs : l.sum = 0 := List.sum_eq_zero hz
  unfold sampleVar?
  rw [if_neg (by omega)]
  have hm : (l.map (fun x => (x - l.sum / l.length) ^ 2)).sum = 0 := by
    refine List.sum_eq_zero ?_
    intro y hy
    obtain ⟨x, hx, rfl⟩ := List.mem_map.mp hy
    rw [hz x hx, hs, zero_div, sub_zero]
    norm_num
  rw [hm, zero_div]

/-! ## Claim C8 -/

/-- Claim C8 (amended): for every price series with at least 2 points and a
positive calendar span, `calculate_cagr` returns exactly
`cumulativeReturnFactor ** (365.25 / spanDays) - 1` with
`cumulativeReturnFactor` the product of `(1 + r)` over the daily returns;
consequently a constant price series has CAGR `.ok 0` (a value, not the
error/sentinel case).  The annualized volatility of a constant series is
`0` only when the series has at least 3 points — with exactly 2 points the
sample standard deviation (ddof = 1 over a single return) is NaN. -/
theorem c8_cagr_formula (s : List (ℤ × ℚ)) (c : ℚ) :
    (2 ≤ s.length → 0 < spanDays s →
      calculate_cagr s
        = .ok ((specCumFactor s : ℝ)
            ^ ((((1461 : ℚ) / 4 / (spanDays s : ℚ)) : ℚ) : ℝ) - 1)) ∧
    (2 ≤ s.length → 0 < spanDays s → (∀ q ∈ s, q.2 = c) →
      calculate_cagr s = .ok 0) ∧
    (3 ≤ s.length → (∀ q ∈ s, q.2 = c) →
      port_volatility (dailyReturns (s.map Prod.snd)) = some 0) := by
  refine ⟨?_, ?_, ?_⟩
  · intro h2 hspan
    exact calculate_cagr_formula s h2 (ne_of_gt hspan)
  · intro h2 hspan hc
    rw [calculate_cagr_formula s h2 (ne_of_gt hspan), specCumFactor_const s c hc]
    norm_num [Real.one_rpow]
  · intro h3 hc
    have hz : ∀ r ∈ dailyReturns (s.map Prod.snd), r = 0 := by
      refine dailyReturns_const (s.map Prod.snd) c ?_
      intro x hx
      obtain ⟨q, hq, rfl⟩ := List.mem_map.mp hx
      exact hc q hq
    have h2 : 2 ≤ (dailyReturns (s.map Prod.snd)).length := by
      rw [dailyReturns_length, List.length_map]
      omega
    rw [port_volatility, sampleVar?_all_zero _ h2 hz]
    simp [Real.sqrt_zero]

/-- Witness for C8 (amended): a constant 3-point series has CAGR `.ok 0` and
volatility `0`; a concrete 2-point series gets the exact formula value. -/
theorem c8_cagr_formula_witness :
    calculate_cagr [((0 : ℤ), (5 : ℚ)), (365, 5), (730, 5)] = .ok 0 ∧
    port_volatility (dailyReturns ([((0 : ℤ), (5 : ℚ)), (365, 5), (730, 5)].map Prod.snd))
      = some 0 ∧
    calculate_cagr [((0 : ℤ), (1 : ℚ)), (365, 2)]
      = .ok ((specCumFactor [((0 : ℤ), (1 : ℚ)), (365, 2)] : ℝ)
          ^ ((((1461 : ℚ) / 4 / ((spanDays [((0 : ℤ), (1 : ℚ)), (365, 2)] : ℤ) : ℚ)) : ℚ) : ℝ)
          - 1) := by
  refine ⟨(c8_cagr_formula [((0 : ℤ), (5 : ℚ)), (365, 5), (730, 5)] 5).2.1
      (by norm_num) (by decide) (by simp),
    (c8_cagr_formula [((0 : ℤ), (5 : ℚ)), (365, 5), (730, 5)] 5).2.2
      (by norm_num) (by simp),
    (c8_cagr_formula [((0 : ℤ), (1 : ℚ)), (365, 2)] 0).1 (by norm_num) (by decide)⟩

/-- Counterexample to C8 as stated: for the constant TWO-point series
`[(0, 5), (365, 5)]` the annualized volatility is NaN (pandas sample
standard deviation of a single return), not `0`. -/
theorem c8_two_point_constant_volatility_counterexample :
    port_volatility (dailyReturns ([((0 : ℤ), (5 : ℚ)), (365, 5)].map Prod.snd))
      ≠ some 0 := by
  have h1 : dailyReturns ([((0 : ℤ), (5 : ℚ)), (365, 5)].map Prod.snd) = [0] := by
    norm_num [dailyReturns, pct]
  have h2 : sampleVar? [(0 : ℚ)] = none := by simp [sampleVar?]
  rw [h1, port_volatility, h2]
  simp

/-! ## Claim C9 -/

theorem sqrt_mul_sqrt252 (v : ℚ) :
    Real.sqrt (v : ℝ) * Real.sqrt 252 = Real.sqrt (252 * (v : ℝ)) := by
  rw [Real.sqrt_mul (by norm_num : (0 : ℝ) ≤ 252), mul_comm]

/-- Claim C9 (amended): `src/app.py`'s annualized volatility is the SAMPLE
(`ddof = 1`, pandas default) standard deviation of the daily returns times
`√252`, but `src/risk_metrics.py`'s is the POPULATION (`ddof = 0`, numpy
default) standard deviation times `√252`; the two denominators (`n - 1`
versus `n`) disagree. -/
theorem c9_volatility_denominators (pd : List (List ℚ)) (w : List ℚ) (r : List ℚ) :
    rm_volatility (portfolioReturns pd w)
      = (popVar? (portfolioReturns pd w)).map (fun v : ℚ => Real.sqrt (252 * (v : ℝ))) ∧
    port_volatility r = (sampleVar? r).map (fun v : ℚ => Real.sqrt (252 * (v : ℝ))) := by
  constructor
  · unfold rm_volatility
    cases popVar? (portfolioReturns pd w) with
    | none => rfl
    | some v => simp [sqrt_mul_sqrt252 v]
  · unfold port_volatility
    cases sampleVar? r with
    | none => rfl
    | some v => simp [sqrt_mul_sqrt252 v]

/-- Counterexample to C9 as stated: on the price column `[100, 100, 102]`
(portfolio returns `[0, 0.02]`) the volatility computed by
`src/risk_metrics.py` (population std, `√(252 · 1/10000)`) differs from the
claimed sample-standard-deviation formula (`√(252 · 1/5000)`). -/
theorem c9_population_std_counterexample :
    rm_volatility (portfolioReturns [[100], [100], [102]] [1])
      ≠ (sampleVar? (portfolioReturns [[100], [100], [102]] [1])).map
          (fun v : ℚ => Real.sqrt (v : ℝ) * Real.sqrt 252) := by
  have hpr : portfolioReturns [[100], [100], [102]] [1] = [0, 1/50] := by
    norm_num [portfolioReturns, pctRows, pct]
  have hpop : popVar? [(0 : ℚ), 1/50] = some (1/10000) := by
    unfold popVar?
    rw [if_neg (by simp)]
    norm_num
  have hsamp : sampleVar? [(0 : ℚ), 1/50] = some (1/5000) := by
    norm_num [sampleVar?]
  rw [hpr, rm_volatility, hpop, hsamp]
  simp only [Option.map_some', ne_eq, Option.some.injEq]
  have c1 : ((1/10000 : ℚ) : ℝ) = 1/10000 := by norm_num
  have c2 : ((1/5000 : ℚ) : ℝ) = 1/5000 := by norm_num
  rw [c1, c2]
  intro h
  have hb : Real.sqrt 252 ≠ 0 := by
    rw [Real.sqrt_ne_zero' ]
    norm_num
  have h' : Real.sqrt (1/10000) = Real.sqrt (1/5000) := mul_right_cancel₀ hb h
  have := (Real.sqrt_inj (by norm_num) (by norm_num)).mp h'
  norm_num at this

/-! ## Claim C5 -/

theorem port_volatility_nonneg (r : List ℚ) (v : ℝ) (hv : port_volatility r = some v) :
    0 ≤ v := by
  unfold port_volatility at hv
  cases hs : sampleVar? r with
  | none => rw [hs] at hv; exact absurd hv (by simp)
  | some sv =>
      rw [hs, Option.map_some', Option.some.injEq] at hv
      rw [← hv]
      exact mul_nonneg (Real.sqrt_nonneg _) (Real.sqrt_nonneg _)

/-- Claim C5 (amended): `src/app.py`'s portfolio Sharpe is
`cagr / volatility` guarded by `volatility > 0`, yielding the NaN sentinel
(never a fault) when the volatility is zero or itself NaN; but
`src/risk_metrics.py`'s `sharpe_ratio` is `mean / std * √252` computed from
the returns alone — it is not CAGR divided by annualized volatility. -/
theorem c5_sharpe_guard (cagr : ℝ) (r : List ℚ) :
    (∀ v, port_volatility r = some v → v ≠ 0 →
      port_sharpe cagr (port_volatility r) = some (cagr / v)) ∧
    (port_volatility r = some 0 → port_sharpe cagr (port_volatility r) = none) ∧
    (port_volatility r = none → port_sharpe cagr (port_volatility r) = none) ∧
    (∀ m v, mean? r = some m → sampleVar? r = some v → v ≠ 0 →
      rm_sharpe r = some ((m : ℝ) / Real.sqrt (v : ℝ) * Real.sqrt 252)) := by
  refine ⟨?_, ?_, ?_, ?_⟩
  · intro v hv hne
    have hpos : 0 < v := lt_of_le_of_ne (port_volatility_nonneg r v hv) (Ne.symm hne)
    rw [hv]
    show (if 0 < v then some (cagr / v) else none) = some (cagr / v)
    rw [if_pos hpos]
  · intro hv
    rw [hv]
    unfold port_sharpe
    simp
  · intro hv
    rw [hv]
    rfl
  · intro m v hm hv hne
    unfold rm_sharpe
    rw [hm, hv]
    simp [hne]

/-- Witness for C5 (amended): the guard at concrete inputs — returns
`[1, 7]` give a positive volatility and a quotient Sharpe; constant returns
`[0, 0, 0]` give volatility `0` and the NaN sentinel; a single return gives
NaN volatility and the NaN sentinel. -/
theorem c5_sharpe_guard_witness :
    port_sharpe 1 (port_volatility [(1 : ℚ), 7])
      = some (1 / (Real.sqrt ((18 : ℚ) : ℝ) * Real.sqrt 252)) ∧
    port_sharpe 1 (port_volatility [(0 : ℚ), 0, 0]) = none ∧
    port_sharpe 1 (port_volatility [(5 : ℚ)]) = none := by
  have hs18 : sampleVar? [(1 : ℚ), 7] = some 18 := by norm_num [sampleVar?]
  have hv18 : port_volatility [(1 : ℚ), 7]
      = some (Real.sqrt ((18 : ℚ) : ℝ) * Real.sqrt 252) := by
    rw [port_volatility, hs18]
    rfl
  have hvpos : (0 : ℝ) < Real.sqrt ((18 : ℚ) : ℝ) * Real.sqrt 252 := by
    have : ((18 : ℚ) : ℝ) = 18 := by norm_num
    rw [this]
    exact mul_pos (Real.sqrt_pos.mpr (by norm_num)) (Real.sqrt_pos.mpr (by norm_num))
  have hv0 : port_volatility [(0 : ℚ), 0, 0] = some 0 := by
    rw [port_volatility, sampleVar?_all_zero [(0 : ℚ), 0, 0] (by norm_num) (by simp)]
    simp
  have hvnan : port_volatility [(5 : ℚ)] = none := by
    rw [port_volatility, show sampleVar? [(5 : ℚ)] = none from by simp [sampleVar?]]
    rfl
  exact ⟨(c5_sharpe_guard 1 [(1 : ℚ), 7]).1 _ hv18 (ne_of_gt hvpos),
    (c5_sharpe_guard 1 [(0 : ℚ), 0, 0]).2.1 hv0,
    (c5_sharpe_guard 1 [(5 : ℚ)]).2.2.1 hvnan⟩

/-- Counterexample to C5 as stated: for the single-asset price path
`[1, 2, 16]` over dates `0, 730, 1461` (span exactly 4 years) the CAGR is
`16 ** (1/4) - 1 = 1`, yet `src/risk_metrics.py`'s Sharpe on the same
returns `[1, 7]` (`mean/std·√252 = 4/√18·√252`) is NOT that CAGR divided by
the annualized volatility (`1/(√18·√252)`). -/
theorem c5_rm_sharpe_counterexample :
    calculate_cagr [((0 : ℤ), (1 : ℚ)), (730, 2), (1461, 16)] = .ok 1 ∧
    rm_sharpe (portfolioReturns [[1], [2], [16]] [1])
      ≠ port_sharpe 1 (port_volatility (portfolioReturns [[1], [2], [16]] [1])) := by
  have hpr : portfolioReturns [[1], [2], [16]] [1] = [1, 7] := by
    norm_num [portfolioReturns, pctRows, pct]
  have hs18 : sampleVar? [(1 : ℚ), 7] = some 18 := by norm_num [sampleVar?]
  have hm4 : mean? [(1 : ℚ), 7] = some 4 := by
    unfold mean?
    rw [if_neg (by simp)]
    norm_num
  have hcast18 : ((18 : ℚ) : ℝ) = 18 := by norm_num
  have ha : (0 : ℝ) < Real.sqrt 18 := Real.sqrt_pos.mpr (by norm_num)
  have hb : (0 : ℝ) < Real.sqrt 252 := Real.sqrt_pos.mpr (by norm_num)
  constructor
  · rw [calculate_cagr_formula _ (by norm_num) (by decide)]
    have hspan : spanDays [((0 : ℤ), (1 : ℚ)), (730, 2), (1461, 16)] = 1461 := by
      simp [spanDays]
    have hfac : specCumFactor [((0 : ℤ), (1 : ℚ)), (730, 2), (1461, 16)] = 16 := by
      norm_num [specCumFactor, dailyReturns, pct]
    rw [hspan, hfac]
    have hexp : ((1461 : ℚ) / 4 / ((1461 : ℤ) : ℚ)) = 1/4 := by norm_num
    rw [hexp]
    have hc : (((1/4 : ℚ)) : ℝ) = (1/4 : ℝ) := by norm_num
    have hc16 : ((16 : ℚ) : ℝ) = (16 : ℝ) := by norm_num
    rw [hc, hc16]
    have h16 : (16 : ℝ) = (2 : ℝ) ^ ((4 : ℕ) : ℝ) := by
      rw [Real.rpow_natCast]
      norm_num
    rw [h16, ← Real.rpow_mul (by norm_num : (0 : ℝ) ≤ 2)]
    norm_num
  · rw [hpr]
    have hrm : rm_sharpe [(1 : ℚ), 7]
        = some ((4 : ℝ) / Real.sqrt 18 * Real.sqrt 252) := by
      rw [rm_sharpe, hm4, hs18]
      norm_num [hcast18]
    have hvol : port_volatility [(1 : ℚ), 7]
        = some (Real.sqrt 18 * Real.sqrt 252) := by
      rw [port_volatility, hs18]
      simp [hcast18]
    have hps : port_sharpe 1 (port_volatility [(1 : ℚ), 7])
        = some (1 / (Real.sqrt 18 * Real.sqrt 252)) := by
      rw [hvol]
      show (if 0 < Real.sqrt 18 * Real.sqrt 252
          then some (1 / (Real.sqrt 18 * Real.sqrt 252)) else none) = _
      rw [if_pos (mul_pos ha hb)]
    rw [hrm, hps]
    simp only [ne_eq, Option.some.injEq]
    intro h
    have hL : (4 : ℝ) / Real.sqrt 18 * Real.sqrt 252 * (Real.sqrt 18 * Real.sqrt 252)
        = 4 * (Real.sqrt 18 / Real.sqrt 18) * (Real.sqrt 252 * Real.sqrt 252) := by
      ring
    rw [div_self (ne_of_gt ha), Real.mul_self_sqrt (by norm_num : (0 : ℝ) ≤ 252)] at hL
    have hR : (1 : ℝ) / (Real.sqrt 18 * Real.sqrt 252) * (Real.sqrt 18 * Real.sqrt 252)
        = (Real.sqrt 18 * Real.sqrt 252) / (Real.sqrt 18 * Real.sqrt 252) := by
      ring
    rw [div_self (ne_of_gt (mul_pos ha hb))] at hR
    have hmul := congrArg (fun x : ℝ => x * (Real.sqrt 18 * Real.sqrt 252)) h
    simp only at hmul
    rw [hL, hR] at hmul
    norm_num at hmul

/-! ## Sector ranking (src/app.py `recommend_replacements`, lines 101-104) -/

/-- `{k: v for k, v in sector_perf.items() if not np.isnan(v)}`: drop the
NaN (`none`) sectors, keeping dict insertion order. -/
def valid_sectors (perf : List (String × Option ℚ)) : List (String × ℚ) :=
  perf.filterMap (fun p => p.2.map (fun v => (p.1, v)))

/-- Stable descending insertion: the new element goes in front of the first
entry whose CAGR is `≤` its own, so earlier input entries win ties. -/
def insertDesc (x : String × ℚ) : List (String × ℚ) → List (String × ℚ)
  | [] => [x]
  | y :: ys => if y.2 ≤ x.2 then x :: y :: ys else y :: insertDesc x ys

/-- `sorted(valid_sectors.items(), key=lambda x: x[1], reverse=True)`:
Python's sort is stable (and `reverse=True` keeps ties in input order), and
a stable sort is uniquely determined by the key order, so stable insertion
sort is an exact model. -/
def sortDesc : List (String × ℚ) → List (String × ℚ)
  | [] => []
  | x :: xs => insertDesc x (sortDesc xs)

/-- The ranked `(sector, CAGR)` sequence used by the recommender. -/
def rankSectors (perf : List (String × Option ℚ)) : List (String × ℚ) :=
  sortDesc (valid_sectors perf)

theorem insertDesc_perm (x : String × ℚ) (l : List (String × ℚ)) :
    (insertDesc x l).Perm (x :: l) := by
  induction l with
  | nil => exact List.Perm.refl _
  | cons y ys ih =>
      show (if y.2 ≤ x.2 then x :: y :: ys else y :: insertDesc x ys).Perm _
      by_cases h : y.2 ≤ x.2
      · rw [if_pos h]
      · rw [if_neg h]
        exact (ih.cons y).trans (List.Perm.swap x y ys)

theorem mem_insertDesc (z x : String × ℚ) (l : List (String × ℚ)) :
    z ∈ insertDesc x l ↔ z = x ∨ z ∈ l := by
  rw [(insertDesc_perm x l).mem_iff, List.mem_cons]

theorem insertDesc_pairwise (x : String × ℚ) (l : List (String × ℚ))
    (hl : l.Pairwise (fun a b => b.2 ≤ a.2)) :
    (insertDesc x l).Pairwise (fun a b => b.2 ≤ a.2) := by
  induction l with
  | nil => simp [insertDesc]
  | cons y ys ih =>
      obtain ⟨hy, hys⟩ := List.pairwise_cons.mp hl
      show (if y.2 ≤ x.2 then x :: y :: ys else y :: insertDesc x ys).Pairwise _
      by_cases h : y.2 ≤ x.2
      · rw [if_pos h]
        refine List.Pairwise.cons ?_ hl
        intro z hz
        rcases List.mem_cons.mp hz with rfl | hz'
        · exact h
        · exact le_trans (hy z hz') h
      · rw [if_neg h]
        refine List.Pairwise.cons ?_ (ih hys)
        intro z hz
        rcases (mem_insertDesc z x ys).mp hz with rfl | hz'
        · exact le_of_not_le h
        · exact hy z hz'

theorem filter_insertDesc (x : String × ℚ) (l : List (String × ℚ)) (q : ℚ) :
    (insertDesc x l).filter (fun p => decide (p.2 = q))
      = (x :: l).filter (fun p => decide (p.2 = q)) := by
  induction l with
  | nil => rfl
  | cons y ys ih =>
      show (if y.2 ≤ x.2 then x :: y :: ys else y :: insertDesc x ys).filter _ = _
      by_cases h : y.2 ≤ x.2
      · rw [if_pos h]
      · rw [if_neg h]
        have hlt : x.2 < y.2 := lt_of_not_ge h
        by_cases hx : x.2 = q
        · have hy : ¬ y.2 = q := fun hyq => absurd (hx.trans hyq.symm) (ne_of_lt hlt)
          simp [List.filter_cons, hx, hy, ih]
        · by_cases hy : y.2 = q
          · simp [List.filter_cons, hx, hy, ih]
          · simp [List.filter_cons, hx, hy, ih]

theorem sortDesc_perm (l : List (String × ℚ)) : (sortDesc l).Perm l := by
  induction l with
  | nil => exact List.Perm.refl _
  | cons x xs ih =>
      show (insertDesc x (sortDesc xs)).Perm _
      exact (insertDesc_perm x (sortDesc xs)).trans (ih.cons x)

theorem sortDesc_pairwise (l : List (String × ℚ)) :
    (sortDesc l).Pairwise (fun a b => b.2 ≤ a.2) := by
  induction l with
  | nil => simp [sortDesc]
  | cons x xs ih => exact insertDesc_pairwise x (sortDesc xs) ih

theorem sortDesc_filter (l : List (String × ℚ)) (q : ℚ) :
    (sortDesc l).filter (fun p => decide (p.2 = q))
      = l.filter (fun p => decide (p.2 = q)) := by
  induction l with
  | nil => rfl
  | cons x xs ih =>
      show (insertDesc x (sortDesc xs)).filter _ = _
      rw [filter_insertDesc, List.filter_cons, List.filter_cons, ih]

/-! ## Claim C2 -/

/-- Claim C2 (amended): the ranking is a permutation of the non-NaN
`(sector, CAGR)` pairs (undefined-CAGR sectors excluded), sorted weakly
descending by CAGR; ties between equal CAGRs are broken by the INPUT
(dict insertion) order — the sort is stable — not by sector label
ascending. -/
theorem c2_rank_sectors_sorted (perf : List (String × Option ℚ)) :
    (rankSectors perf).Perm (valid_sectors perf) ∧
    (rankSectors perf).Pairwise (fun a b => b.2 ≤ a.2) ∧
    (∀ q : ℚ, (rankSectors perf).filter (fun p => decide (p.2 = q))
      = (valid_sectors perf).filter (fun p => decide (p.2 = q))) :=
  ⟨sortDesc_perm _, sortDesc_pairwise _, fun q => sortDesc_filter _ q⟩

/-- Counterexample to C2 as stated: with equal CAGRs supplied in the order
`B, A`, the code keeps `B` first (stable, input order); the claimed
label-ascending tie-break would put `A` first. -/
theorem c2_tiebreak_counterexample :
    rankSectors [("B", some (1 : ℚ)), ("A", some 1)] = [("B", 1), ("A", 1)] ∧
    rankSectors [("B", some (1 : ℚ)), ("A", some 1)] ≠ [("A", 1), ("B", 1)] := by
  have h : rankSectors [("B", some (1 : ℚ)), ("A", some 1)] = [("B", 1), ("A", 1)] := by
    norm_num [rankSectors, valid_sectors, sortDesc, insertDesc]
  refine ⟨h, ?_⟩
  rw [h]
  intro hc
  have : ("B" : String) = "A" := congrArg (fun l => (l.headD ("", 0)).1) hc
  exact absurd this (by decide)

/-! ## Replacement recommendation (src/app.py `recommend_replacements`) -/

/-- `portfolio_sector_wts.get(sector, 0)`. -/
def lookupWeight (wts : List (String × ℚ)) (k : String) : ℚ :=
  ((wts.find? (fun p => p.1 == k)).map Prod.snd).getD 0

/-- `etf_map.get(key, None)`. -/
def lookupStr (m : List (String × String)) (k : String) : Option String :=
  (m.find? (fun p => p.1 == k)).map Prod.snd

/-- `[s for s, _ in sorted_sectors[:3]]`: the top-3 ranked sector labels. -/
def top_sectors (perf : List (String × Option ℚ)) : List String :=
  ((rankSectors perf).take 3).map Prod.fst

/-- The selection loop of `recommend_replacements`: first top sector that
differs from the underperformer's sector and has portfolio weight `< 0.3`;
if none qualifies, `top_sectors[0]` when the list is non-empty. -/
def pick_replacement (tops : List String) (underSector : String)
    (wts : List (String × ℚ)) : Option String :=
  match tops.find?
      (fun sct => sct != underSector && decide (lookupWeight wts sct < 3 / 10)) with
  | some sct => some sct
  | none => tops.head?

/-- Python dict assignment `d[k] = v`: overwrite in place if the key exists,
else append (insertion order preserved). -/
def dictUpsert {α : Type} (d : List (String × α)) (k : String) (v : α) :
    List (String × α) :=
  if d.any (fun p => p.1 == k) then d.map (fun p => if p.1 == k then (k, v) else p)
  else d ++ [(k, v)]

/-- `src/app.py:recommend_replacements`: one dict entry per underperformer,
mapping the ticker to the chosen sector and its ETF (both possibly absent). -/
def recommend_replacements (ups : List (String × ℝ))
    (sector_perf : List (String × Option ℚ)) (portfolio_sector_wts : List (String × ℚ))
    (sectorOf : String → String) (etf_map : List (String × String)) :
    List (String × (Option String × Option String)) :=
  ups.foldl
    (fun recs u =>
      let rs := pick_replacement (top_sectors sector_perf) (sectorOf u.1)
        portfolio_sector_wts
      dictUpsert recs u.1 (rs, rs.bind (fun sct => lookupStr etf_map sct)))
    []

/-- Modelled from the claim's wording: walk the top-3 ranked sectors in
descending-CAGR order and select the first that differs from the
underperformer's own sector and has portfolio exposure strictly below 0.30;
if none qualifies and the top list is non-empty, fall back to the single
highest-ranked sector; if the ranking is empty, no sector. -/
def claimSelect (ranked : List (String × ℚ)) (underSector : String)
    (wts : List (String × ℚ)) : Option String :=
  match ((ranked.take 3).map Prod.fst).find?
      (fun sct => sct != underSector && decide (lookupWeight wts sct < 3 / 10)) with
  | some sct => some sct
  | none => ((ranked.take 3).map Prod.fst).head?

theorem dictUpsert_of_not_mem {α : Type} (d : List (String × α)) (k : String) (v : α)
    (h : ∀ p ∈ d, p.1 ≠ k) : dictUpsert d k v = d ++ [(k, v)] := by
  unfold dictUpsert
  rw [if_neg]
  intro hc
  obtain ⟨p, hp, hpk⟩ := List.any_eq_true.mp hc
  exact h p hp (by simpa using hpk)

theorem foldl_upsert_eq_map {α : Type} (g : String → α) :
    ∀ (ups : List (String × ℝ)) (acc : List (String × α)),
      (ups.map Prod.fst).Nodup →
      (∀ p ∈ acc, ∀ u ∈ ups, p.1 ≠ u.1) →
      ups.foldl (fun recs u => dictUpsert recs u.1 (g u.1)) acc
        = acc ++ ups.map (fun u => (u.1, g u.1)) := by
  intro ups
  induction ups with
  | nil => intro acc _ _; simp
  | cons u us ih =>
      intro acc hnd hdisj
      have hnd' : (us.map Prod.fst).Nodup ∧ u.1 ∉ us.map Prod.fst := by
        rw [List.map_cons, List.nodup_cons] at hnd
        exact ⟨hnd.2, hnd.1⟩
      rw [List.foldl_cons,
        dictUpsert_of_not_mem _ _ _ (fun p hp => hdisj p hp u (List.mem_cons_self u us)),
        ih (acc ++ [(u.1, g u.1)]) hnd'.1 ?_]
      · rw [List.append_assoc]
        rfl
      · intro p hp u' hu'
        rcases List.mem_append.mp hp with hp' | hp'
        · exact hdisj p hp' u' (List.mem_cons_of_mem u hu')
        · have hpu : p = (u.1, g u.1) := by simpa using hp'
          rw [hpu]
          intro hc
          exact hnd'.2 (hc ▸ List.mem_map_of_mem Prod.fst hu')

/-! ## Claim C1 -/

/-- Claim C1: for underperformers with pairwise distinct tickers (always
the case in `app.py`, where they come from the de-duplicated columns of
`adj_close`), `recommend_replacements` produces exactly one recommendation
per input underperformer, in input order: the sector chosen by walking the
top-3 ranked sectors (first one differing from the underperformer's sector
with portfolio exposure strictly below 0.30, falling back to the single
top-ranked sector, and `none` with no instrument when the ranking is
empty), paired with that sector's ETF lookup. -/
theorem c1_recommend_selection (ups : List (String × ℝ))
    (perf : List (String × Option ℚ)) (wts : List (String × ℚ))
    (sectorOf : String → String) (etf : List (String × String))
    (h : (ups.map Prod.fst).Nodup) :
    recommend_replacements ups perf wts sectorOf etf
      = ups.map (fun u => (u.1,
          (claimSelect (rankSectors perf) (sectorOf u.1) wts,
           (claimSelect (rankSectors perf) (sectorOf u.1) wts).bind
             (fun sct => lookupStr etf sct)))) := by
  have key := foldl_upsert_eq_map
    (fun t => (claimSelect (rankSectors perf) (sectorOf t) wts,
      (claimSelect (rankSectors perf) (sectorOf t) wts).bind
        (fun sct => lookupStr etf sct)))
    ups [] h (by simp)
  exact key

/-- Witness for C1: two underperformers with distinct tickers; the first
(own sector `Auto`, the top sector) is steered to `IT` (weight `0.2 < 0.3`),
the second (unknown sector) also gets `IT` because `Auto` is over the `0.3`
cap — one recommendation each, in order, duplicates allowed. -/
theorem c1_recommend_selection_witness :
    recommend_replacements [("X", (0 : ℝ)), ("Y", 0)]
        [("IT", some (2 : ℚ)), ("Pharma", none), ("Auto", some 3), ("FMCG", some 1)]
        [("Auto", 1/2), ("IT", 1/5)]
        (fun t => if t = "X" then "Auto" else "Zz")
        [("IT", "NSEIT.NS"), ("Auto", "NSEAUTO.NS")]
      = [("X", (some "IT", some "NSEIT.NS")), ("Y", (some "IT", some "NSEIT.NS"))] := by
  have h := c1_recommend_selection [("X", (0 : ℝ)), ("Y", 0)]
    [("IT", some (2 : ℚ)), ("Pharma", none), ("Auto", some 3), ("FMCG", some 1)]
    [("Auto", 1/2), ("IT", 1/5)]
    (fun t => if t = "X" then "Auto" else "Zz")
    [("IT", "NSEIT.NS"), ("Auto", "NSEAUTO.NS")]
    (by decide)
  rw [h]
  have hrank : rankSectors
      [("IT", some (2 : ℚ)), ("Pharma", none), ("Auto", some 3), ("FMCG", some 1)]
      = [("Auto", 3), ("IT", 2), ("FMCG", 1)] := by
    norm_num [rankSectors, valid_sectors, sortDesc, insertDesc]
  rw [hrank]
  norm_num [claimSelect, lookupWeight, lookupStr, List.find?,
    show (if ("X" : String) = "X" then ("Auto" : String) else "Zz") = "Auto" from
      if_pos rfl,
    show (if ("Y" : String) = "X" then ("Auto" : String) else "Zz") = "Zz" from by
      rw [if_neg (by decide)],
    show (("Auto" : String) != "Auto") = false from rfl,
    show (("IT" : String) != "Auto") = true from rfl,
    show (("Auto" : String) != "Zz") = true from rfl,
    show (("IT" : String) != "Zz") = true from rfl,
    show (("FMCG" : String) != "Zz") = true from rfl,
    show (("FMCG" : String) != "Auto") = true from rfl,
    show (("Auto" : String) == "IT") = false from rfl,
    show (("IT" : String) == "IT") = true from rfl,
    show (("Auto" : String) == "Auto") = true from rfl,
    show (("IT" : String) == "Auto") = false from rfl,
    show (("Auto" : String) == "FMCG") = false from rfl,
    show (("IT" : String) == "FMCG") = false from rfl]

end RiskRadar
